import Mathlib

/-!
Verification of the distributed-lock-guarded periodic task and the
surrounding bootstrap code of `api/ragflow_server.py`, together with the
login-token loader of `api/apps/__init__.py`.

The Python loop under study is:

    def update_progress():
        redis_lock = RedisDistributedLock("update_progress", timeout=60)
        while not stop_event.is_set():
            try:
                if not redis_lock.acquire():
                    continue
                DocumentService.update_progress()
                stop_event.wait(6)
            except Exception:
                logging.exception("update_progress exception")
            finally:
                redis_lock.release()

We embed one run of this loop as a function from a schedule of
environment behaviours (one per loop iteration: whether the cancellation
flag was set before the top-of-loop check, the boolean result of
`acquire`, whether the work unit raised, and whether the flag was set
during the interruptible wait) to the trace of observable events the
loop performs.  Python's semantics of `continue`/`raise` inside
`try ... finally` (the `finally` block always runs) are reflected in the
trace construction: `release` ends every executed iteration.
-/

namespace Ragflow

/-- Observable events of one run of the `update_progress` loop:
lock-acquisition attempts with their boolean outcome, executions of the
work unit `DocumentService.update_progress()` recording whether it
raised, the interruptible `stop_event.wait(6)` recording whether it was
interrupted by the flag, the `logging.exception` call of the `except`
branch, and the `redis_lock.release()` of the `finally` block. -/
inductive Ev where
  | acquire (ok : Bool)
  | work (raised : Bool)
  | waitSleep (interrupted : Bool)
  | logExc
  | release
deriving DecidableEq, Repr

/-- Environment behaviour for one iteration of the loop: whether the
cancellation flag got set before this iteration's top-of-loop
`stop_event.is_set()` check, the result of `redis_lock.acquire()`,
whether `DocumentService.update_progress()` raised, and whether the flag
got set during `stop_event.wait(6)`.  The loop observes the flag only at
the top check and inside the wait, so these two set-points cover all
observably distinct schedules. -/
structure IterBehavior where
  stopBeforeTop : Bool
  acquireOk : Bool
  workRaises : Bool
  stopDuringWait : Bool
deriving DecidableEq, Repr

/-- Events of the `try` body of one executed iteration, before the
`finally` clause.  If `acquire` returns false, the `continue` statement
skips the rest of the body; otherwise the work unit runs, and on a raise
control jumps to the `except` branch (skipping the wait), which logs. -/
def iterBody (b : IterBehavior) : List Ev :=
  if b.acquireOk then
    if b.workRaises then
      [Ev.acquire true, Ev.work true, Ev.logExc]
    else
      [Ev.acquire true, Ev.work false, Ev.waitSleep b.stopDuringWait]
  else
    [Ev.acquire false]

/-- Value of the cancellation flag after an executed iteration that
started with the flag unset: it is set exactly when the iteration
reached the wait (acquire succeeded, work did not raise) and the
environment set the flag during that wait. -/
def flagAfter (b : IterBehavior) : Bool :=
  b.acquireOk && !b.workRaises && b.stopDuringWait

/-- Trace semantics of `update_progress`: given the current value of the
cancellation flag (`stop_event`) and the schedule of per-iteration
environment behaviours, the list of events the loop performs.  The loop
exits as soon as the top-of-loop check sees the flag set; every executed
iteration ends with `release` (the `finally` block runs on the
`continue` path, the normal path and the exception path alike). -/
def update_progress : Bool → List IterBehavior → List Ev
  | _, [] => []
  | f, b :: rest =>
    if f || b.stopBeforeTop then []
    else iterBody b ++ [Ev.release] ++ update_progress (flagAfter b) rest

/-- Keep only the lock-relevant events: acquisition attempts, work-unit
executions and releases. -/
def isLockEv : Ev → Bool
  | Ev.acquire _ => true
  | Ev.work _ => true
  | Ev.release => true
  | _ => false

/-- The lock discipline of the loop, as a grammar on lock-relevant
events: the trace is a sequence of cycles, each either a failed
acquisition followed by a release, or a successful acquisition followed
by exactly one work-unit execution (raising or not) followed by a
release. -/
inductive LockDiscipline : List Ev → Prop where
  | nil : LockDiscipline []
  | deny (rest : List Ev) (h : LockDiscipline rest) :
      LockDiscipline (Ev.acquire false :: Ev.release :: rest)
  | granted (raised : Bool) (rest : List Ev) (h : LockDiscipline rest) :
      LockDiscipline (Ev.acquire true :: Ev.work raised :: Ev.release :: rest)

/-- C1: for every sequence of lock-acquisition outcomes and every
behaviour of the work unit (normal return or raise), the lock-relevant
projection of the loop's trace is a sequence of cycles in which each
work-unit execution is immediately preceded by a successful acquisition
of the same cycle, and each acquisition (successful or not) is followed
by exactly one release before the next acquisition attempt. -/
theorem update_progress_lock_discipline (f : Bool) (env : List IterBehavior) :
    LockDiscipline ((update_progress f env).filter isLockEv) := by
  induction env generalizing f with
  | nil =>
    simpa [update_progress] using LockDiscipline.nil
  | cons b rest ih =>
    by_cases h : (f || b.stopBeforeTop) = true
    · simpa [update_progress, h] using LockDiscipline.nil
    · cases hacq : b.acquireOk with
      | false =>
        have := ih (flagAfter b)
        simp [update_progress, h, iterBody, hacq, isLockEv]
        exact LockDiscipline.deny _ this
      | true =>
        cases hw : b.workRaises with
        | false =>
          have := ih (flagAfter b)
          simp [update_progress, h, iterBody, hacq, hw, isLockEv]
          exact LockDiscipline.granted false _ this
        | true =>
          have := ih (flagAfter b)
          simp [update_progress, h, iterBody, hacq, hw, isLockEv]
          exact LockDiscipline.granted true _ this

/-- Recognises acquisition events. -/
def isAcquire : Ev → Bool
  | Ev.acquire _ => true
  | _ => false

/-- Recognises release events. -/
def isRelease : Ev → Bool
  | Ev.release => true
  | _ => false

/-- Recognises work-unit executions. -/
def isWork : Ev → Bool
  | Ev.work _ => true
  | _ => false

/-- Recognises the interruptible wait. -/
def isWaitSleep : Ev → Bool
  | Ev.waitSleep _ => true
  | _ => false

/-- Number of iterations the loop executes (those whose top-of-loop
check sees the flag unset) under a given initial flag and schedule. -/
def executedIters : Bool → List IterBehavior → Nat
  | _, [] => 0
  | f, b :: rest =>
    if f || b.stopBeforeTop then 0
    else executedIters (flagAfter b) rest + 1

/-- One acquisition attempt per executed iteration. -/
theorem update_progress_acquire_count (f : Bool) (env : List IterBehavior) :
    ((update_progress f env).countP isAcquire) = executedIters f env := by
  induction env generalizing f with
  | nil => simp [update_progress, executedIters]
  | cons b rest ih =>
    by_cases h : (f || b.stopBeforeTop) = true
    · simp [update_progress, executedIters, h]
    · cases hacq : b.acquireOk <;> cases hw : b.workRaises <;>
        simp [update_progress, executedIters, h, iterBody, hacq, hw,
          List.countP_append, List.countP_cons, isAcquire, ih]

/-- C2: if the work unit raises in an executed iteration, the exception
is caught at the iteration boundary and logged (the `logExc` event), the
iteration still releases the lock, and the loop continues: the trace
goes on exactly as a fresh run over the remaining schedule, and in
particular the next iteration's acquisition attempt occurs whenever the
flag is not set before its top-of-loop check. -/
theorem update_progress_raise_is_nonfatal (b bn : IterBehavior)
    (rest : List IterBehavior)
    (h1 : b.stopBeforeTop = false) (h2 : b.acquireOk = true)
    (h3 : b.workRaises = true) (h4 : bn.stopBeforeTop = false) :
    update_progress false (b :: bn :: rest) =
      Ev.acquire true :: Ev.work true :: Ev.logExc :: Ev.release ::
        update_progress false (bn :: rest) ∧
    Ev.acquire bn.acquireOk ∈ update_progress false (bn :: rest) := by
  constructor
  · simp [update_progress, h1, iterBody, h2, h3, flagAfter]
  · cases hacq : bn.acquireOk <;> cases hw : bn.workRaises <;>
      simp [update_progress, h4, iterBody, hacq, hw]

/-- Witness for `update_progress_raise_is_nonfatal` at a concrete
schedule: the work unit raises in the first iteration and the second
iteration still attempts acquisition. -/
theorem update_progress_raise_is_nonfatal_witness :
    update_progress false
        (⟨false, true, true, false⟩ :: ⟨false, true, false, false⟩ :: []) =
      Ev.acquire true :: Ev.work true :: Ev.logExc :: Ev.release ::
        update_progress false (⟨false, true, false, false⟩ :: []) ∧
    Ev.acquire (IterBehavior.mk false true false false).acquireOk ∈
      update_progress false (⟨false, true, false, false⟩ :: []) :=
  update_progress_raise_is_nonfatal ⟨false, true, true, false⟩
    ⟨false, true, false, false⟩ [] rfl rfl rfl rfl

/-- C3: once the cancellation flag is set, no further acquisition
attempt occurs.  First conjunct: with the flag set, the loop performs no
event at all (top-of-loop recheck).  Second conjunct: if the flag is set
before an iteration's top-of-loop check, that iteration performs no
event.  Third conjunct: if the flag becomes set during the interruptible
wait, the wait is interrupted (`waitSleep true`), that iteration still
releases, and the whole remaining trace ends there — no acquisition from
the rest of the schedule. -/
theorem update_progress_stop_means_no_acquire (env rest1 rest2 : List IterBehavior)
    (b c : IterBehavior)
    (h1 : b.stopBeforeTop = false) (h2 : b.acquireOk = true)
    (h3 : b.workRaises = false) (h4 : b.stopDuringWait = true)
    (h5 : c.stopBeforeTop = true) :
    update_progress true env = [] ∧
    update_progress false (c :: rest1) = [] ∧
    update_progress false (b :: rest2) =
      [Ev.acquire true, Ev.work false, Ev.waitSleep true, Ev.release] := by
  refine ⟨?_, ?_, ?_⟩
  · cases env <;> simp [update_progress]
  · simp [update_progress, h5]
  · have hrest : update_progress true rest2 = [] := by
      cases rest2 <;> simp [update_progress]
    simp [update_progress, h1, iterBody, h2, h3, h4, flagAfter, hrest]

/-- Witness for `update_progress_stop_means_no_acquire`: flag set during
the wait of the first scheduled iteration; a later scheduled iteration
never acquires. -/
theorem update_progress_stop_means_no_acquire_witness :
    update_progress true (⟨false, true, false, false⟩ :: []) = [] ∧
    update_progress false (⟨true, true, false, false⟩ :: []) = [] ∧
    update_progress false
        (⟨false, true, false, true⟩ :: ⟨false, true, false, false⟩ :: []) =
      [Ev.acquire true, Ev.work false, Ev.waitSleep true, Ev.release] :=
  update_progress_stop_means_no_acquire (⟨false, true, false, false⟩ :: [])
    [] (⟨false, true, false, false⟩ :: []) ⟨false, true, false, true⟩
    ⟨true, true, false, false⟩ rfl rfl rfl rfl rfl

/-- C4: if every acquisition in the schedule is denied, the loop never
executes the work unit, never sleeps (no wait event at all, hence no
delay between attempts and no sleep to interrupt at shutdown), and its
trace is exactly one `acquire false`/`release` pair per scheduled
iteration up to (and excluding) the first iteration at which the flag is
set — at that point the loop exits immediately. -/
theorem update_progress_all_denied (env : List IterBehavior)
    (h : env.all (fun b => !b.acquireOk) = true) :
    (update_progress false env).filter isWork = [] ∧
    (update_progress false env).filter isWaitSleep = [] ∧
    update_progress false env =
      ((env.takeWhile fun b => !b.stopBeforeTop).map
        fun _ => [Ev.acquire false, Ev.release]).flatten := by
  induction env with
  | nil => simp [update_progress]
  | cons b rest ih =>
    simp only [List.all_cons, Bool.and_eq_true, Bool.not_eq_true'] at h
    obtain ⟨hb, hrest⟩ := h
    obtain ⟨ih1, ih2, ih3⟩ := ih hrest
    by_cases hstop : b.stopBeforeTop = true
    · simp [update_progress, hstop, List.takeWhile]
    · simp only [Bool.not_eq_true] at hstop
      refine ⟨?_, ?_, ?_⟩
      · simp [update_progress, hstop, iterBody, hb, flagAfter, isWork,
          isRelease, ih1]
      · simp [update_progress, hstop, iterBody, hb, flagAfter, isWaitSleep,
          ih2]
      · simp [update_progress, hstop, iterBody, hb, flagAfter, ih3,
          List.takeWhile, List.flatten]

/-- Witness for `update_progress_all_denied` at a concrete two-iteration
schedule whose second iteration starts with the flag set. -/
theorem update_progress_all_denied_witness :
    ((⟨false, false, true, true⟩ :: ⟨true, false, false, false⟩ :: []
        : List IterBehavior).all (fun b => !b.acquireOk) = true) ∧
    ((update_progress false
        (⟨false, false, true, true⟩ :: ⟨true, false, false, false⟩ :: [])).filter
          isWork = [] ∧
     (update_progress false
        (⟨false, false, true, true⟩ :: ⟨true, false, false, false⟩ :: [])).filter
          isWaitSleep = [] ∧
     update_progress false
        (⟨false, false, true, true⟩ :: ⟨true, false, false, false⟩ :: []) =
       (((⟨false, false, true, true⟩ :: ⟨true, false, false, false⟩ :: []
           : List IterBehavior).takeWhile fun b => !b.stopBeforeTop).map
         fun _ => [Ev.acquire false, Ev.release]).flatten) :=
  ⟨by decide,
   update_progress_all_denied
     (⟨false, false, true, true⟩ :: ⟨true, false, false, false⟩ :: [])
     (by decide)⟩

/-- Modelled from the spec: the `release` operation of
`RedisDistributedLock` (implemented in `rag/utils/redis_conn.py`, which
is not among the visible sources).  The spec's external-interface
contract requires release to be safe — a no-op or idempotent — even when
`acquire` never succeeded for that cycle: release always leaves the lock
not held, whatever its prior state. -/
def lockRelease (_held : Bool) : Bool := false

/-- One release per executed iteration. -/
theorem update_progress_release_count (f : Bool) (env : List IterBehavior) :
    ((update_progress f env).countP isRelease) = executedIters f env := by
  induction env generalizing f with
  | nil => simp [update_progress, executedIters]
  | cons b rest ih =>
    by_cases h : (f || b.stopBeforeTop) = true
    · simp [update_progress, executedIters, h]
    · cases hacq : b.acquireOk <;> cases hw : b.workRaises <;>
        simp [update_progress, executedIters, h, iterBody, hacq, hw,
          List.countP_append, List.countP_cons, isRelease, ih]

/-- C5: every executed iteration — including those in which `acquire`
returned false — performs exactly one `release` before the next
iteration begins: the trace holds exactly one release and one
acquisition attempt per executed iteration, and a denied iteration's
trace is precisely `acquire false` followed by `release`.  The release
operation itself (spec-modelled, see `lockRelease`) is a no-op on an
unheld lock and idempotent, so exercising it on cycles without a
successful acquire is safe. -/
theorem update_progress_release_every_iteration (f : Bool)
    (env rest : List IterBehavior) (b : IterBehavior)
    (h1 : b.stopBeforeTop = false) (h2 : b.acquireOk = false) :
    ((update_progress f env).countP isRelease) = executedIters f env ∧
    ((update_progress f env).countP isAcquire) =
      ((update_progress f env).countP isRelease) ∧
    update_progress false (b :: rest) =
      Ev.acquire false :: Ev.release :: update_progress false rest ∧
    lockRelease false = false ∧
    lockRelease (lockRelease true) = lockRelease true := by
  refine ⟨update_progress_release_count f env, ?_, ?_, rfl, rfl⟩
  · rw [update_progress_release_count, update_progress_acquire_count]
  · simp [update_progress, h1, iterBody, h2, flagAfter]

/-- Witness for `update_progress_release_every_iteration`: a denied
iteration still releases exactly once. -/
theorem update_progress_release_every_iteration_witness :
    ((update_progress false (⟨false, false, false, false⟩ :: [])).countP
        isRelease) = executedIters false (⟨false, false, false, false⟩ :: []) ∧
    ((update_progress false (⟨false, false, false, false⟩ :: [])).countP
        isAcquire) =
      ((update_progress false (⟨false, false, false, false⟩ :: [])).countP
        isRelease) ∧
    update_progress false (⟨false, false, false, false⟩ :: []) =
      Ev.acquire false :: Ev.release :: update_progress false [] ∧
    lockRelease false = false ∧
    lockRelease (lockRelease true) = lockRelease true :=
  update_progress_release_every_iteration false
    (⟨false, false, false, false⟩ :: []) [] ⟨false, false, false, false⟩
    rfl rfl

/-- C9: when the work unit raises, the fixed inter-iteration sleep is
skipped entirely for that iteration: the raising iteration contributes
no wait event to the trace (its four events are acquire, work, log,
release), and the event right after its release is already the next
iteration's acquisition attempt — back-to-back cycles with no delay. -/
theorem update_progress_raise_skips_sleep (b bn : IterBehavior)
    (rest : List IterBehavior)
    (h1 : b.stopBeforeTop = false) (h2 : b.acquireOk = true)
    (h3 : b.workRaises = true) (h4 : bn.stopBeforeTop = false) :
    (update_progress false (b :: bn :: rest)).filter isWaitSleep =
      (update_progress false (bn :: rest)).filter isWaitSleep ∧
    (update_progress false (b :: bn :: rest))[4]? =
      some (Ev.acquire bn.acquireOk) := by
  have hhead : update_progress false (b :: bn :: rest) =
      Ev.acquire true :: Ev.work true :: Ev.logExc :: Ev.release ::
        update_progress false (bn :: rest) := by
    simp [update_progress, h1, iterBody, h2, h3, flagAfter]
  constructor
  · rw [hhead]; simp [isWaitSleep]
  · rw [hhead]
    cases hacq : bn.acquireOk <;> cases hw : bn.workRaises <;>
      simp [update_progress, h4, iterBody, hacq, hw]

/-- Witness for `update_progress_raise_skips_sleep` at a concrete
schedule: the first iteration raises, the second acquires at once. -/
theorem update_progress_raise_skips_sleep_witness :
    (update_progress false
        (⟨false, true, true, false⟩ :: ⟨false, false, false, false⟩ :: [])).filter
          isWaitSleep =
      (update_progress false (⟨false, false, false, false⟩ :: [])).filter
        isWaitSleep ∧
    (update_progress false
        (⟨false, true, true, false⟩ :: ⟨false, false, false, false⟩ :: []))[4]? =
      some (Ev.acquire (IterBehavior.mk false false false false).acquireOk) :=
  update_progress_raise_skips_sleep ⟨false, true, true, false⟩
    ⟨false, false, false, false⟩ [] rfl rfl rfl rfl

/-- Kinds of operation the source performs on the `threading.Event`
named `stop_event` (the cancellation flag).  `clear` is the resetting
operation `threading.Event` offers; it is listed so we can state that
the source never uses it. -/
inductive StopOpKind where
  | setFlag
  | isSetQuery
  | waitOnFlag
  | clearFlag
deriving DecidableEq, Repr

/-- The call sites in `api/ragflow_server.py` that touch `stop_event`:
the loop condition `stop_event.is_set()` (line 51), the interruptible
sleep `stop_event.wait(6)` (line 56), the signal handler's
`stop_event.set()` (line 64), and the `stop_event.set()` in the
`__main__` HTTP-server startup-failure handler (line 148). -/
inductive StopSite where
  | loopCondition
  | loopWait
  | signalHandlerSite
  | startupFailureSite
deriving DecidableEq, Repr

/-- Every operation on `stop_event` appearing in the source, in line
order, as a call site paired with the kind of operation performed. -/
def stop_event_ops : List (StopSite × StopOpKind) :=
  [(StopSite.loopCondition, StopOpKind.isSetQuery),
   (StopSite.loopWait, StopOpKind.waitOnFlag),
   (StopSite.signalHandlerSite, StopOpKind.setFlag),
   (StopSite.startupFailureSite, StopOpKind.setFlag)]

/-- Semantics of one `threading.Event` operation on the flag's boolean
state: `set` makes it true, `clear` would make it false, the reading
operations (`is_set`, `wait`) leave it unchanged. -/
def stopApply (f : Bool) : StopOpKind → Bool
  | StopOpKind.setFlag => true
  | StopOpKind.clearFlag => false
  | StopOpKind.isSetQuery => f
  | StopOpKind.waitOnFlag => f

/-- C6 counterexample: the claim that the flag transitions to true only
on receipt of an interrupt/termination signal — i.e. that the signal
handler is the only call site setting it — is false: the startup-failure
handler at line 148 also sets it. -/
theorem stop_event_set_only_by_signal_false :
    ¬ (∀ op ∈ stop_event_ops, op.2 = StopOpKind.setFlag →
        op.1 = StopSite.signalHandlerSite) := by
  decide

/-- C6 (amended): the cancellation flag is a single process-wide boolean
that is never reset: no operation in the source is a `clear`, every
operation either sets it or reads it (`is_set`/`wait`), once true it
stays true under every operation the source performs, and the call sites
that set it are exactly the signal handler and the startup-failure
handler. -/
theorem stop_event_monotone_never_cleared :
    (stop_event_ops.all fun op => !(op.2 == StopOpKind.clearFlag)) = true ∧
    (stop_event_ops.all fun op =>
      (op.2 == StopOpKind.setFlag) || (op.2 == StopOpKind.isSetQuery) ||
        (op.2 == StopOpKind.waitOnFlag)) = true ∧
    (stop_event_ops.all fun op => stopApply true op.2) = true ∧
    (stop_event_ops.filter fun op => op.2 == StopOpKind.setFlag).map
        Prod.fst =
      [StopSite.signalHandlerSite, StopSite.startupFailureSite] := by
  refine ⟨by decide, by decide, by decide, by decide⟩

/-- Signals relevant to the server process. -/
inductive Sig where
  | sigint
  | sigterm
  | sigkill
deriving DecidableEq, Repr

/-- Actions the shutdown paths of `api/ragflow_server.py` perform. -/
inductive ProcAction where
  | logInfo
  | logStackTrace
  | setStopFlag
  | sleepFor (n : Nat)
  | exitProcess (code : Nat)
  | killSelf (s : Sig)
deriving DecidableEq, Repr

/-- How the process terminated. -/
inductive Termination where
  | exited (code : Nat)
  | killed (s : Sig)
deriving DecidableEq, Repr

/-- Process-level state observed by the shutdown paths: the cancellation
flag, elapsed time, and whether a stack trace has been logged. -/
structure ProcState where
  stopFlag : Bool
  elapsed : Nat
  stackTraceLogged : Bool
deriving DecidableEq, Repr

/-- Effect of one action on the process state, possibly terminating. -/
def applyAction (s : ProcState) : ProcAction → ProcState × Option Termination
  | ProcAction.logInfo => (s, none)
  | ProcAction.logStackTrace => ({ s with stackTraceLogged := true }, none)
  | ProcAction.setStopFlag => ({ s with stopFlag := true }, none)
  | ProcAction.sleepFor n => ({ s with elapsed := s.elapsed + n }, none)
  | ProcAction.exitProcess c => (s, some (Termination.exited c))
  | ProcAction.killSelf sg => (s, some (Termination.killed sg))

/-- Run a sequence of actions until one terminates the process. -/
def runActions : ProcState → List ProcAction → ProcState × Option Termination
  | s, [] => (s, none)
  | s, a :: rest =>
    match applyAction s a with
    | (t, some term) => (t, some term)
    | (t, none) => runActions t rest

/-- The body of `signal_handler` (lines 62-66): log, set `stop_event`,
sleep one second, `sys.exit(0)`. -/
def signal_handler : List ProcAction :=
  [ProcAction.logInfo, ProcAction.setStopFlag, ProcAction.sleepFor 1,
   ProcAction.exitProcess 0]

/-- The `except` branch guarding HTTP-server startup in `__main__`
(lines 146-150): `traceback.print_exc()`, set `stop_event`, sleep one
second, `os.kill(os.getpid(), signal.SIGKILL)`. -/
def startupFailureHandler : List ProcAction :=
  [ProcAction.logStackTrace, ProcAction.setStopFlag, ProcAction.sleepFor 1,
   ProcAction.killSelf Sig.sigkill]

/-- C7: from any process state, the signal path sets the cancellation
flag, waits a one-unit grace delay, and exits with code 0; the
startup-failure path logs a stack trace, sets the cancellation flag,
waits a one-unit grace delay, and then force-kills the process with
SIGKILL — an abnormal termination distinct from a code-0 exit. -/
theorem shutdown_paths (s : ProcState) :
    (runActions s signal_handler).2 = some (Termination.exited 0) ∧
    (runActions s signal_handler).1.stopFlag = true ∧
    (runActions s signal_handler).1.elapsed = s.elapsed + 1 ∧
    (runActions s startupFailureHandler).2 =
      some (Termination.killed Sig.sigkill) ∧
    (runActions s startupFailureHandler).1.stackTraceLogged = true ∧
    (runActions s startupFailureHandler).1.stopFlag = true ∧
    (runActions s startupFailureHandler).1.elapsed = s.elapsed + 1 ∧
    Termination.killed Sig.sigkill ≠ Termination.exited 0 := by
  refine ⟨rfl, rfl, rfl, rfl, rfl, rfl, rfl, by decide⟩

/-- Identifier of the background task submitted at startup. -/
inductive TaskId where
  | updateProgressTask
deriving DecidableEq, Repr

/-- The startup steps of the `__main__` block of
`api/ragflow_server.py`, in program order: `faulthandler.enable()`,
logger and banner, settings, database initialisation, argument parsing,
installation of the SIGINT and SIGTERM handlers, creation of the
`ThreadPoolExecutor(max_workers=1)`, the single
`thread.submit(update_progress)`, and finally `uvicorn.run(...)` which
begins accepting HTTP requests. -/
inductive MainStep where
  | enableFaulthandler
  | initLogger
  | logStartupInfo
  | initSettings
  | initDatabase
  | initWebData
  | parseArgs
  | installSignalHandler (s : Sig)
  | createExecutor (maxWorkers : Nat)
  | submitTask (t : TaskId)
  | startHttpServer
deriving DecidableEq, Repr

/-- The `__main__` startup sequence. -/
def mainSteps : List MainStep :=
  [MainStep.enableFaulthandler, MainStep.initLogger, MainStep.logStartupInfo,
   MainStep.initSettings, MainStep.initDatabase, MainStep.initWebData,
   MainStep.parseArgs, MainStep.installSignalHandler Sig.sigint,
   MainStep.installSignalHandler Sig.sigterm, MainStep.createExecutor 1,
   MainStep.submitTask TaskId.updateProgressTask, MainStep.startHttpServer]

/-- C8: the progress-update task is submitted exactly once per process
(no duplicate task loops), the only executor created has capacity one (a
dedicated worker), the HTTP server is started, and the submission
strictly precedes the start of the HTTP server. -/
theorem startup_sequencing :
    (mainSteps.countP fun st =>
        st == MainStep.submitTask TaskId.updateProgressTask) = 1 ∧
    (mainSteps.filter fun st =>
        match st with
        | MainStep.createExecutor _ => true
        | _ => false) = [MainStep.createExecutor 1] ∧
    MainStep.startHttpServer ∈ mainSteps ∧
    (mainSteps.findIdx fun st =>
        st == MainStep.submitTask TaskId.updateProgressTask) <
      (mainSteps.findIdx fun st => st == MainStep.startHttpServer) := by
  refine ⟨by decide, by decide, by decide, by decide⟩

/-- User status, standing for `StatusEnum`: the login loader queries
only for users whose status is valid. -/
inductive Status where
  | valid
  | notValid
deriving DecidableEq, Repr

/-- Calls the token loader makes on its collaborators, recorded so we
can state that no verification is attempted when the header is absent,
and that exceptions are logged: `loadsCalled` for `jwt.loads`,
`queryCalled` for `UserService.query`, `loggedWarning` for the
`logging.warning` call in the `except` branch. -/
inductive AuthEv where
  | loadsCalled
  | queryCalled
  | loggedWarning
deriving DecidableEq, Repr

/-- Projection of an `Except` onto its success value. -/
def exceptOk? : Except String β → Option β
  | Except.ok b => some b
  | Except.error _ => none

/-- The `load_user` request loader of `api/apps/__init__.py` (lines
59-77), embedded over abstract collaborators: `loads` stands for
`str(jwt.loads(authorization))` and `query` for
`UserService.query(access_token=..., status=StatusEnum.VALID.value)`;
both may raise, modelled as `Except`.  Python truthiness of the header
(`if authorization:`) makes an empty string behave like an absent
header.  A raise from either collaborator is caught, a warning is
logged, and `None` is returned; the function is total — it never
propagates an exception.  The returned event list records which
collaborators were invoked. -/
def load_user {U : Type} (authorization : Option String)
    (loads : String → Except String String)
    (query : String → Status → Except String (List U)) :
    Option U × List AuthEv :=
  match authorization with
  | none => (none, [])
  | some a =>
    if a = "" then (none, [])
    else
      match loads a with
      | Except.error _ => (none, [AuthEv.loadsCalled, AuthEv.loggedWarning])
      | Except.ok tok =>
        match query tok Status.valid with
        | Except.error _ =>
            (none,
             [AuthEv.loadsCalled, AuthEv.queryCalled, AuthEv.loggedWarning])
        | Except.ok [] => (none, [AuthEv.loadsCalled, AuthEv.queryCalled])
        | Except.ok (u :: _) =>
            (some u, [AuthEv.loadsCalled, AuthEv.queryCalled])

/-- C10: the login-token loader never propagates an exception (it is a
total function into `Option`): with no Authorization header it returns
`None` without calling any collaborator; when token deserialization
raises it returns `None` and logs a warning; when the user lookup raises
it returns `None` and logs a warning; when the valid-status query finds
a user it returns that user; when it finds none it returns `None`; and
whenever it returns a user, the token deserialized successfully and
the valid-status query returned a list headed by that user. -/
theorem load_user_total_and_guarded {U : Type}
    (a b c d x tb tc td e : String) (u u' : U) (us : List U)
    (loads : String → Except String String)
    (query : String → Status → Except String (List U))
    (ha : a ≠ "") (hb : b ≠ "") (hc : c ≠ "") (hd : d ≠ "")
    (h1 : loads a = Except.error e)
    (h2 : loads b = Except.ok tb)
    (h3 : query tb Status.valid = Except.error e)
    (h4 : loads c = Except.ok tc)
    (h5 : query tc Status.valid = Except.ok (u :: us))
    (h6 : loads d = Except.ok td)
    (h7 : query td Status.valid = Except.ok [])
    (hx : (load_user (some x) loads query).1 = some u') :
    load_user none loads query = (none, []) ∧
    load_user (some a) loads query =
      (none, [AuthEv.loadsCalled, AuthEv.loggedWarning]) ∧
    load_user (some b) loads query =
      (none, [AuthEv.loadsCalled, AuthEv.queryCalled, AuthEv.loggedWarning]) ∧
    load_user (some c) loads query =
      (some u, [AuthEv.loadsCalled, AuthEv.queryCalled]) ∧
    load_user (some d) loads query =
      (none, [AuthEv.loadsCalled, AuthEv.queryCalled]) ∧
    (exceptOk? (loads x)).isSome = true ∧
    ((exceptOk? (query ((exceptOk? (loads x)).getD "") Status.valid)).bind
      List.head?) = some u' := by
  have hmain : (exceptOk? (loads x)).isSome = true ∧
      ((exceptOk? (query ((exceptOk? (loads x)).getD "") Status.valid)).bind
        List.head?) = some u' := by
    by_cases hxe : x = ""
    · simp [load_user, hxe] at hx
    · cases hl : loads x with
      | error e2 => simp [load_user, hxe, hl] at hx
      | ok t =>
        cases hq : query t Status.valid with
        | error e2 => simp [load_user, hxe, hl, hq] at hx
        | ok l =>
          cases l with
          | nil => simp [load_user, hxe, hl, hq] at hx
          | cons u0 rest2 =>
            simp [load_user, hxe, hl, hq] at hx
            subst hx
            simp [exceptOk?, hl, hq]
  refine ⟨rfl, ?_, ?_, ?_, ?_, hmain.1, hmain.2⟩
  · simp [load_user, ha, h1]
  · simp [load_user, hb, h2, h3]
  · simp [load_user, hc, h4, h5]
  · simp [load_user, hd, h6, h7]

/-- Concrete token loader for the witness: one header that fails to
deserialize, one whose lookup raises, one that matches a user, one that
matches no user. -/
def loadsSample : String → Except String String
  | "bad" => Except.error "boom"
  | "berr" => Except.ok "tb"
  | "good" => Except.ok "tc"
  | "nouser" => Except.ok "td"
  | _ => Except.error "boom"

/-- Concrete user lookup for the witness. -/
def querySample : String → Status → Except String (List Nat)
  | "tb", _ => Except.error "boom"
  | "tc", _ => Except.ok [7]
  | "td", _ => Except.ok []
  | _, _ => Except.error "boom"

/-- Witness for `load_user_total_and_guarded` at the concrete
collaborators `loadsSample` and `querySample`. -/
theorem load_user_total_and_guarded_witness :
    load_user none loadsSample querySample = (none, []) ∧
    load_user (some "bad") loadsSample querySample =
      (none, [AuthEv.loadsCalled, AuthEv.loggedWarning]) ∧
    load_user (some "berr") loadsSample querySample =
      (none, [AuthEv.loadsCalled, AuthEv.queryCalled, AuthEv.loggedWarning]) ∧
    load_user (some "good") loadsSample querySample =
      (some 7, [AuthEv.loadsCalled, AuthEv.queryCalled]) ∧
    load_user (some "nouser") loadsSample querySample =
      (none, [AuthEv.loadsCalled, AuthEv.queryCalled]) ∧
    (exceptOk? (loadsSample "good")).isSome = true ∧
    ((exceptOk? (querySample ((exceptOk? (loadsSample "good")).getD "")
        Status.valid)).bind List.head?) = some 7 :=
  load_user_total_and_guarded "bad" "berr" "good" "nouser" "good"
    "tb" "tc" "td" "boom" 7 7 [] loadsSample querySample
    (by decide) (by decide) (by decide) (by decide)
    rfl rfl rfl rfl rfl rfl rfl rfl

end Ragflow
